import Mathlib

/-!
Shallow embedding of `src/pbfdownloader.py` (PBFdownloader).

The script is a single module-level crawl loop.  We embed its state and
control flow directly:

* `CrawlState` holds the module-level mutable variables (`SourceCounter`,
  `ServerPartNumber`, `SessionTileCount`, `TotalTileCount`, `VectorTiles`,
  `Run`, `PickupDone`) together with observation logs: the sequence of
  `WriteGlobalStatus` calls (`checkpoints`), of `WriteToDB` batches
  (`dbWrites`), of per-tile log lines (`tileLogs`), and of tiles visited by
  the enumeration (`visited`).  `lastZ`/`lastY`/`lastX` model the Python
  loop variables `Z`/`Y`/`X`, which survive their loops and are read by the
  final `WriteGlobalStatus` call.  `idxOOB` records whether
  `ServerParts[ServerPartNumber]` was ever evaluated with an out-of-range
  index.
* HTTP is a pure oracle `Nat → Nat` giving the status code of the n-th
  `requests.get` call (the n-th call is numbered by `httpCount`).
* The tile rectangle per zoom (lines 213-219, computed from the bounding
  box by `deg2num` over floats) is abstracted into a per-source function
  `rectOf : Int → Rect`; the real-number model of `deg2num` itself and of
  the rectangle assembly is `deg2num` / `bboxTileRect` below.
* `retryLoopAux` is the retry `while` loop (lines 245-282), written with
  `fuel = MaxRetries - RetryCounter` as the structural argument; `colLoop`,
  `rowLoop`, `zoomLoop` are the `for X` / `for Y` / `for Z` loops;
  `runPass` is one execution of the body of `while (MapRun and Run)`
  (which runs at most once per source visit, since a completed pass sets
  `MapRun = False`); `runSources` is the outer `while Run` loop, one
  source visit per step.
* `sleep`, the textual log sink, the MBtiles metadata block, the
  per-source pass-counter file and the archive copy are not observed by
  any claim and are dropped; asynchronous signals are not modelled (the
  `Run` flag changes only through the fatal-failure branch).
-/

namespace PBF

/-- Inclusive tile rectangle of one zoom level: `min_x`, `max_x`, `min_y`,
`max_y` as computed at lines 216-219. -/
structure Rect where
  minX : Int
  maxX : Int
  minY : Int
  maxY : Int
  deriving DecidableEq, Repr

/-- One map source, as read from `mapconfig.json` (lines 158-165): the mirror
list `ServerParts`, `min_z`, `max_z`, and the tile rectangle derived from its
bounding box at each zoom. -/
structure SourceCfg where
  serverParts : List String
  minZ0 : Int
  maxZ : Int
  rectOf : Int → Rect

instance : Inhabited SourceCfg := ⟨⟨[], 0, 0, fun _ => ⟨0, 0, 0, 0⟩⟩⟩

/-- A tile as appended to `VectorTiles` (line 258): `Tile(z = Z, x = X,
y = Yconversion - Y)`.  The payload bytes are irrelevant to every claim and
dropped. -/
structure Tile where
  z : Int
  x : Int
  y : Int
  deriving DecidableEq, Repr

/-- Ghost tag: which call site performed a `WriteGlobalStatus` — the per-zoom
save at line 226, the batch-flush save at line 266, or the end-of-pass /
shutdown save at line 299. -/
inductive Site where
  | zoomStart
  | flush
  | passEnd
  deriving DecidableEq, Repr

/-- One `WriteGlobalStatus(File, Source, X, Y, Z, TotalTileCount)` call
(lines 89-97).  `site` and `atZoom` (the value of the loop variable `Z` at
the moment of the call) are ghost observations. -/
structure Checkpoint where
  source : Nat
  x : Int
  y : Int
  z : Int
  total : Nat
  site : Site
  atZoom : Int
  deriving DecidableEq, Repr

/-- Per-tile log lines: the 404 warning (line 270) and the fatal-failure
error (lines 274-278). -/
inductive LogEvent where
  | warn404 (z x y : Int)
  | errorFail (z x y : Int) (status : Nat)
  deriving DecidableEq, Repr

/-- The module-level mutable state of the script plus observation logs. -/
structure CrawlState where
  sourceCounter : Nat
  serverPartNumber : Nat
  sessionTileCount : Nat
  totalTileCount : Nat
  vectorTiles : List Tile
  run : Bool
  pickupDone : Bool
  httpCount : Nat
  checkpoints : List Checkpoint
  dbWrites : List (List Tile)
  tileLogs : List LogEvent
  visited : List (Int × Int × Int)
  lastZ : Int
  lastY : Int
  lastX : Int
  idxOOB : Bool
  deriving DecidableEq, Repr

/-- Mirror rotation, lines 249-251: `ServerPartNumber += 1;
if ServerPartNumber == NumberOfServerParts: ServerPartNumber = 0`. -/
def rotStep (N i : Nat) : Nat := if i + 1 = N then 0 else i + 1

/-- Python `range(a, b + 1)` over integers: `[a, a+1, ..., b]`, empty when
`b < a`. -/
def intRange (a b : Int) : List Int :=
  (List.range (b + 1 - a).toNat).map (fun (i : Nat) => a + (i : Int))

/-- The retry `while` loop, lines 245-282.  `fuel` is
`MaxRetries - RetryCounter`; the loop guard `RetryCounter < MaxRetries` is
`0 < fuel`, and `RetryCounter + 1 == MaxRetries` (this attempt is the last)
is `fuel = 1`, i.e. the recursive argument hits `0`.  A 200 ends the loop
(the code sets `RetryCounter = MaxRetries`); the fatal branch sets
`Run = False`, after which `if not Run: break` exits. -/
def retryLoopAux (cfg : SourceCfg) (oracle : Nat → Nat) (W : Nat)
    (Z X Y : Int) : Nat → CrawlState → CrawlState
  | 0, s => s
  | fuel + 1, s =>
    let N := cfg.serverParts.length
    let status := oracle s.httpCount
    let s1 : CrawlState := { s with
      idxOOB := s.idxOOB || decide (N ≤ s.serverPartNumber),
      serverPartNumber := rotStep N s.serverPartNumber,
      httpCount := s.httpCount + 1 }
    if status = 200 then
      let tile : Tile := ⟨Z, X, ((2 : Int) ^ Z.toNat - 1) - Y⟩
      let s2 : CrawlState := { s1 with
        vectorTiles := s1.vectorTiles ++ [tile],
        sessionTileCount := s1.sessionTileCount + 1 }
      if s2.vectorTiles.length = W then
        { s2 with
          dbWrites := s2.dbWrites ++ [s2.vectorTiles],
          totalTileCount := s2.totalTileCount + s2.vectorTiles.length,
          vectorTiles := [],
          checkpoints := s2.checkpoints ++
            [⟨s2.sourceCounter, X, Y, Z, s2.totalTileCount + s2.vectorTiles.length,
              Site.flush, Z⟩] }
      else s2
    else if status = 404 then
      let s2 := if fuel = 0 then
          { s1 with tileLogs := s1.tileLogs ++ [LogEvent.warn404 Z X Y] }
        else s1
      retryLoopAux cfg oracle W Z X Y fuel s2
    else
      if fuel = 0 then
        { s1 with
          tileLogs := s1.tileLogs ++ [LogEvent.errorFail Z X Y status],
          run := false }
      else
        retryLoopAux cfg oracle W Z X Y fuel s1

/-- One tile fetch: the retry loop entered with `RetryCounter = 0` and
`MaxRetries = NumberOfServerParts` (lines 175-176, 245). -/
def retryLoop (cfg : SourceCfg) (oracle : Nat → Nat) (W : Nat)
    (Z X Y : Int) (s : CrawlState) : CrawlState :=
  retryLoopAux cfg oracle W Z X Y cfg.serverParts.length s

/-- The `for X in range(StartX, max_x + 1)` loop, lines 243-287.  After each
tile the code sleeps and continues if `Run`, else breaks. -/
def colLoop (cfg : SourceCfg) (oracle : Nat → Nat) (W : Nat)
    (Z Y : Int) : List Int → CrawlState → CrawlState
  | [], s => s
  | X :: xs, s =>
    let s1 : CrawlState := { s with lastX := X, visited := s.visited ++ [(Z, Y, X)] }
    let s2 := retryLoop cfg oracle W Z X Y s1
    if s2.run then colLoop cfg oracle W Z Y xs s2 else s2

/-- The `for Y in range(StartY, max_y + 1)` loop, lines 235-290.  Each row
picks `StartX` from `PickupDone` (lines 237-241) and then sets
`PickupDone = True`. -/
def rowLoop (cfg : SourceCfg) (oracle : Nat → Nat) (W : Nat)
    (Z minX maxX pickupX : Int) : List Int → CrawlState → CrawlState
  | [], s => s
  | Y :: ys, s =>
    let startX := if s.pickupDone then minX else pickupX
    let s1 : CrawlState := { s with lastY := Y, pickupDone := true }
    let s2 := colLoop cfg oracle W Z Y (intRange startX maxX) s1
    if s2.run then rowLoop cfg oracle W Z minX maxX pickupX ys s2 else s2

/-- The `for Z in range(min_z, max_z + 1)` loop, lines 210-293.  Each zoom
computes its rectangle, writes the per-zoom checkpoint
`WriteGlobalStatus(ProcessStateFile, SourceCounter, min_x, min_y, min_z,
TotalTileCount)` (line 226 — note the zoom field is `min_z`, not `Z`), picks
`StartY` (lines 230-233) and runs the rows. -/
def zoomLoop (cfg : SourceCfg) (oracle : Nat → Nat) (W : Nat)
    (minz pickupX pickupY : Int) : List Int → CrawlState → CrawlState
  | [], s => s
  | Z :: zs, s =>
    let r := cfg.rectOf Z
    let s1 : CrawlState := { s with
      lastZ := Z,
      checkpoints := s.checkpoints ++
        [⟨s.sourceCounter, r.minX, r.minY, minz, s.totalTileCount, Site.zoomStart, Z⟩] }
    let startY := if s1.pickupDone then r.minY else pickupY
    let s2 := rowLoop cfg oracle W Z r.minX r.maxX pickupX (intRange startY r.maxY) s1
    if s2.run then zoomLoop cfg oracle W minz pickupX pickupY zs s2 else s2

/-- The final flush of a partial batch, lines 296-297: `if
len(VectorTiles) > 0: TotalTileCount = WriteToDB(...)`, with the buffer
cleared by line 300. -/
def passFlush (s : CrawlState) : CrawlState :=
  if 0 < s.vectorTiles.length then
    { s with
      dbWrites := s.dbWrites ++ [s.vectorTiles],
      totalTileCount := s.totalTileCount + s.vectorTiles.length,
      vectorTiles := [] }
  else s

/-- The final `WriteGlobalStatus` of lines 298-299, from the surviving loop
variables `X, Y, Z` (modelled by `lastX`, `lastY`, `lastZ`), guarded by
`SessionTileCount > 0`. -/
def passSave (s : CrawlState) : CrawlState :=
  if 0 < s.sessionTileCount then
    { s with checkpoints := s.checkpoints ++
        [⟨s.sourceCounter, s.lastX, s.lastY, s.lastZ, s.totalTileCount,
          Site.passEnd, s.lastZ⟩] }
  else s

/-- Pass-completion bookkeeping, lines 302-314, executed only when `Run` is
still true: reset the cumulative counter, set `PickupDone = True`, advance
the source index with wrap-around. -/
def passComplete (numSources : Nat) (s : CrawlState) : CrawlState :=
  if s.run then
    { s with
      totalTileCount := 0,
      pickupDone := true,
      sourceCounter := if numSources ≤ s.sourceCounter + 1 then 0 else s.sourceCounter + 1 }
  else s

/-- One execution of the body of `while (MapRun and Run)` for the source at
`sourceCounter` (lines 158-314): `min_z` selection (lines 148, 171-172), the
zoom loop, the final flush (lines 296-297), the final
`WriteGlobalStatus(..., X, Y, Z, ...)` from the surviving loop variables
(lines 298-299), and on a completed pass (`Run` still true) the pass
bookkeeping of lines 302-314 (counter reset, `PickupDone = True`, source
advance with wrap-around). -/
def runPass (cfg : SourceCfg) (numSources : Nat) (oracle : Nat → Nat) (W : Nat)
    (pickupZ pickupX pickupY : Int) (s : CrawlState) : CrawlState :=
  passComplete numSources (passSave (passFlush
    (zoomLoop cfg oracle W (if s.pickupDone then cfg.minZ0 else pickupZ) pickupX pickupY
      (intRange (if s.pickupDone then cfg.minZ0 else pickupZ) cfg.maxZ) s)))

/-- The outer `while Run` loop (line 156), one source visit per step.
`pickupZ`/`pickupX`/`pickupY` are the fields of the `PickupStatus` read at
start-up (they never change during the run). -/
def runSources (cfgs : List SourceCfg) (oracle : Nat → Nat) (W : Nat)
    (pickupZ pickupX pickupY : Int) : Nat → CrawlState → CrawlState
  | 0, s => s
  | n + 1, s =>
    if s.run then
      runSources cfgs oracle W pickupZ pickupX pickupY n
        (runPass (cfgs.getD s.sourceCounter default) cfgs.length oracle W
          pickupZ pickupX pickupY s)
    else s

/-- Fresh start (no `ProcessStateFile`, line 154): `PickupDone = True`, all
counters zero. -/
def initState : CrawlState :=
  ⟨0, 0, 0, 0, [], true, true, 0, [], [], [], [], 0, 0, 0, false⟩

/-- Start-up with a saved checkpoint (lines 145-152): restore
`SourceCounter` and `TotalTileCount`, and set
`PickupDone = (PickupStatus.X == 0)`. -/
def startupState (source : Nat) (pickupX : Int) (total : Nat) : CrawlState :=
  { initState with
    sourceCounter := source,
    totalTileCount := total,
    pickupDone := decide (pickupX = 0) }

/-- The full grid of a source in visit order (zoom, then row, then column),
for a pass started fresh at `min_z`. -/
def gridTiles (cfg : SourceCfg) : List (Int × Int × Int) :=
  (intRange cfg.minZ0 cfg.maxZ).flatMap fun Z =>
    (intRange (cfg.rectOf Z).minY (cfg.rectOf Z).maxY).flatMap fun Y =>
      (intRange (cfg.rectOf Z).minX (cfg.rectOf Z).maxX).map fun X => (Z, Y, X)

/-- The sequence of mirror indices used by successive attempts when the
rotation starts at index `s0`: attempt `n` uses `rotSeq N s0 n`. -/
def rotSeq (N s0 : Nat) : Nat → Nat
  | 0 => s0
  | n + 1 => rotStep N (rotSeq N s0 n)

/-! ### Helper lemmas: fields preserved or extended by the loops -/

theorem retryAux_visited (cfg : SourceCfg) (oracle : Nat → Nat) (W : Nat) (Z X Y : Int) :
    ∀ (fuel : Nat) (s : CrawlState),
    (retryLoopAux cfg oracle W Z X Y fuel s).visited = s.visited := by
  intro fuel
  induction fuel with
  | zero => intro s; rfl
  | succ fuel ih =>
    intro s
    simp only [retryLoopAux]
    split_ifs <;> simp [ih]

theorem retryAux_pickupDone (cfg : SourceCfg) (oracle : Nat → Nat) (W : Nat) (Z X Y : Int) :
    ∀ (fuel : Nat) (s : CrawlState),
    (retryLoopAux cfg oracle W Z X Y fuel s).pickupDone = s.pickupDone := by
  intro fuel
  induction fuel with
  | zero => intro s; rfl
  | succ fuel ih =>
    intro s
    simp only [retryLoopAux]
    split_ifs <;> simp [ih]

theorem retryAux_ck_mem (cfg : SourceCfg) (oracle : Nat → Nat) (W : Nat) (Z X Y : Int) :
    ∀ (fuel : Nat) (s : CrawlState) (ck : Checkpoint),
    ck ∈ (retryLoopAux cfg oracle W Z X Y fuel s).checkpoints →
    ck ∈ s.checkpoints ∨
      (ck.site = Site.flush ∧ ck.x = X ∧ ck.y = Y ∧ ck.z = Z ∧ ck.atZoom = Z) := by
  intro fuel
  induction fuel with
  | zero => intro s ck h; exact Or.inl h
  | succ fuel ih =>
    intro s ck h
    simp only [retryLoopAux] at h
    split_ifs at h
    · rcases List.mem_append.1 h with h' | h'
      · exact Or.inl h'
      · rcases List.mem_singleton.1 h' with rfl
        right; simp
    · exact Or.inl h
    · rcases ih _ ck h with h' | h'
      · exact Or.inl h'
      · exact Or.inr h'
    · rcases ih _ ck h with h' | h'
      · exact Or.inl h'
      · exact Or.inr h'
    · exact Or.inl h
    · rcases ih _ ck h with h' | h'
      · exact Or.inl h'
      · exact Or.inr h'

theorem colLoop_ck_mem (cfg : SourceCfg) (oracle : Nat → Nat) (W : Nat) (Z Y : Int) :
    ∀ (xs : List Int) (s : CrawlState) (ck : Checkpoint),
    ck ∈ (colLoop cfg oracle W Z Y xs s).checkpoints →
    ck ∈ s.checkpoints ∨ (ck.site = Site.flush ∧ ck.y = Y ∧ ck.z = Z ∧ ck.atZoom = Z) := by
  intro xs
  induction xs with
  | nil => intro s ck h; exact Or.inl h
  | cons X xs ih =>
    intro s ck h
    simp only [colLoop] at h
    have key : ∀ (t : CrawlState), ck ∈ (retryLoop cfg oracle W Z X Y t).checkpoints →
        ck ∈ t.checkpoints ∨ (ck.site = Site.flush ∧ ck.y = Y ∧ ck.z = Z ∧ ck.atZoom = Z) := by
      intro t ht
      rcases retryAux_ck_mem cfg oracle W Z X Y _ t ck ht with h' | h'
      · exact Or.inl h'
      · exact Or.inr ⟨h'.1, h'.2.2.1, h'.2.2.2.1, h'.2.2.2.2⟩
    split_ifs at h
    · rcases ih _ ck h with h' | h'
      · rcases key _ h' with h'' | h''
        · exact Or.inl h''
        · exact Or.inr h''
      · exact Or.inr h'
    · rcases key _ h with h' | h'
      · exact Or.inl h'
      · exact Or.inr h'

theorem rowLoop_ck_mem (cfg : SourceCfg) (oracle : Nat → Nat) (W : Nat)
    (Z minX maxX pickupX : Int) :
    ∀ (ys : List Int) (s : CrawlState) (ck : Checkpoint),
    ck ∈ (rowLoop cfg oracle W Z minX maxX pickupX ys s).checkpoints →
    ck ∈ s.checkpoints ∨ (ck.site = Site.flush ∧ ck.z = Z ∧ ck.atZoom = Z) := by
  intro ys
  induction ys with
  | nil => intro s ck h; exact Or.inl h
  | cons Y ys ih =>
    intro s ck h
    simp only [rowLoop] at h
    have key : ∀ (xs : List Int) (t : CrawlState),
        ck ∈ (colLoop cfg oracle W Z Y xs t).checkpoints →
        ck ∈ t.checkpoints ∨ (ck.site = Site.flush ∧ ck.z = Z ∧ ck.atZoom = Z) := by
      intro xs t ht
      rcases colLoop_ck_mem cfg oracle W Z Y xs t ck ht with h' | h'
      · exact Or.inl h'
      · exact Or.inr ⟨h'.1, h'.2.2.1, h'.2.2.2⟩
    generalize (if s.pickupDone = true then minX else pickupX) = sx at h
    split_ifs at h
    · rcases ih _ ck h with h' | h'
      · rcases key _ _ h' with h'' | h''
        · exact Or.inl h''
        · exact Or.inr h''
      · exact Or.inr h'
    · rcases key _ _ h with h' | h'
      · exact Or.inl h'
      · exact Or.inr h'

theorem zoomLoop_ck_mem (cfg : SourceCfg) (oracle : Nat → Nat) (W : Nat)
    (minz pickupX pickupY : Int) :
    ∀ (zs : List Int) (s : CrawlState) (ck : Checkpoint),
    ck ∈ (zoomLoop cfg oracle W minz pickupX pickupY zs s).checkpoints →
    ck ∈ s.checkpoints ∨ ck.site = Site.flush ∨
      (ck.site = Site.zoomStart ∧ ck.z = minz ∧
        ck.x = (cfg.rectOf ck.atZoom).minX ∧ ck.y = (cfg.rectOf ck.atZoom).minY) := by
  intro zs
  induction zs with
  | nil => intro s ck h; exact Or.inl h
  | cons Z zs ih =>
    intro s ck h
    simp only [zoomLoop] at h
    have key : ∀ (ys : List Int) (t : CrawlState),
        ck ∈ (rowLoop cfg oracle W Z (cfg.rectOf Z).minX (cfg.rectOf Z).maxX pickupX
          ys t).checkpoints →
        ck ∈ t.checkpoints ∨ ck.site = Site.flush := by
      intro ys t ht
      rcases rowLoop_ck_mem cfg oracle W Z _ _ pickupX ys t ck ht with h' | h'
      · exact Or.inl h'
      · exact Or.inr h'.1
    have base : ck ∈ s.checkpoints ++
        [⟨s.sourceCounter, (cfg.rectOf Z).minX, (cfg.rectOf Z).minY, minz, s.totalTileCount,
          Site.zoomStart, Z⟩] →
        ck ∈ s.checkpoints ∨ ck.site = Site.flush ∨
          (ck.site = Site.zoomStart ∧ ck.z = minz ∧
            ck.x = (cfg.rectOf ck.atZoom).minX ∧ ck.y = (cfg.rectOf ck.atZoom).minY) := by
      intro h1
      rcases List.mem_append.1 h1 with h' | h'
      · exact Or.inl h'
      · rcases List.mem_singleton.1 h' with rfl
        right; right; simp
    generalize (if s.pickupDone = true then (cfg.rectOf Z).minY else pickupY) = sy at h
    split_ifs at h
    · rcases ih _ ck h with h' | h' | h'
      · rcases key _ _ h' with h'' | h''
        · exact base h''
        · exact Or.inr (Or.inl h'')
      · exact Or.inr (Or.inl h')
      · exact Or.inr (Or.inr h')
    · rcases key _ _ h with h' | h'
      · exact base h'
      · exact Or.inr (Or.inl h')

theorem passFlush_checkpoints (s : CrawlState) : (passFlush s).checkpoints = s.checkpoints := by
  rw [passFlush]; split_ifs <;> rfl

theorem passComplete_checkpoints (numSources : Nat) (s : CrawlState) :
    (passComplete numSources s).checkpoints = s.checkpoints := by
  rw [passComplete]; split_ifs <;> rfl

theorem passSave_ck_mem (s : CrawlState) (ck : Checkpoint)
    (h : ck ∈ (passSave s).checkpoints) :
    ck ∈ s.checkpoints ∨ ck.site = Site.passEnd := by
  rw [passSave] at h
  split_ifs at h
  · rcases List.mem_append.1 h with h' | h'
    · exact Or.inl h'
    · rcases List.mem_singleton.1 h' with rfl
      exact Or.inr rfl
  · exact Or.inl h

theorem runPass_ck_mem (cfg : SourceCfg) (numSources : Nat) (oracle : Nat → Nat) (W : Nat)
    (pickupZ pickupX pickupY : Int) (s : CrawlState) (ck : Checkpoint)
    (h : ck ∈ (runPass cfg numSources oracle W pickupZ pickupX pickupY s).checkpoints) :
    ck ∈ s.checkpoints ∨ ck.site = Site.flush ∨ ck.site = Site.passEnd ∨
      (ck.site = Site.zoomStart ∧ ck.z = (if s.pickupDone then cfg.minZ0 else pickupZ) ∧
        ck.x = (cfg.rectOf ck.atZoom).minX ∧ ck.y = (cfg.rectOf ck.atZoom).minY) := by
  rw [runPass, passComplete_checkpoints] at h
  rcases passSave_ck_mem _ ck h with h1 | h1
  · rw [passFlush_checkpoints] at h1
    rcases zoomLoop_ck_mem cfg oracle W _ pickupX pickupY _ s ck h1 with h2 | h2 | h2
    · exact Or.inl h2
    · exact Or.inr (Or.inl h2)
    · exact Or.inr (Or.inr (Or.inr h2))
  · exact Or.inr (Or.inr (Or.inl h1))

theorem passSave_sess (t : CrawlState) : (passSave t).sessionTileCount = t.sessionTileCount := by
  rw [passSave]; split_ifs <;> rfl

theorem passSave_run (t : CrawlState) : (passSave t).run = t.run := by
  rw [passSave]; split_ifs <;> rfl

theorem passComplete_run (n : Nat) (t : CrawlState) : (passComplete n t).run = t.run := by
  rw [passComplete]; split_ifs <;> rfl

theorem passComplete_id_of_stop (n : Nat) (t : CrawlState) (h : t.run = false) :
    passComplete n t = t := by
  simp [passComplete, h]

theorem save_complete_ck (n : Nat) (t : CrawlState)
    (hrun : (passComplete n (passSave t)).run = false)
    (hsess : 0 < (passComplete n (passSave t)).sessionTileCount) :
    (passComplete n (passSave t)).checkpoints.getLast? =
      some ⟨(passComplete n (passSave t)).sourceCounter,
        (passComplete n (passSave t)).lastX, (passComplete n (passSave t)).lastY,
        (passComplete n (passSave t)).lastZ, (passComplete n (passSave t)).totalTileCount,
        Site.passEnd, (passComplete n (passSave t)).lastZ⟩ := by
  rw [passComplete_run, passSave_run] at hrun
  rw [passComplete_id_of_stop _ _ (by rw [passSave_run]; exact hrun)] at hsess ⊢
  have hs : 0 < t.sessionTileCount := by rwa [passSave_sess] at hsess
  simp [passSave, hs, List.getLast?_append_cons]

/-! ### Concrete configurations used by counterexamples and witnesses -/

/-- A one-mirror list, as `ServerParts = [""]`. -/
def srvOne : List String := List.replicate 1 ""

/-- Two zoom levels (`min_z = 0`, `max_z = 1`), one tile per zoom, with
distinct rectangle minima per zoom. -/
def cfgZoomPair : SourceCfg :=
  ⟨srvOne, 0, 1, fun z => ⟨2 * z + 1, 2 * z + 1, 2 * z + 2, 2 * z + 2⟩⟩

/-- One zoom level whose rectangle holds the two tiles `(x, y) = (5, 3)` and
`(6, 3)`. -/
def cfgRowPair : SourceCfg := ⟨srvOne, 0, 0, fun _ => ⟨5, 6, 3, 3⟩⟩

/-- One zoom level whose rectangle holds the two tiles `(x, y) = (0, 0)` and
`(1, 0)`. -/
def cfgFatal : SourceCfg := ⟨srvOne, 0, 0, fun _ => ⟨0, 1, 0, 0⟩⟩

/-- One zoom level (`z = 5`) whose rectangle holds seven tiles
`x = 0, ..., 6` in a single row. -/
def cfgSeven : SourceCfg := ⟨srvOne, 5, 5, fun _ => ⟨0, 6, 0, 0⟩⟩

/-! ### C1 -/

/-- C1 counterexample: running one pass over `cfgZoomPair` (zooms 0 and 1,
all fetches 404, so no flush save interferes), the checkpoint saved at the
start of zoom 1 — i.e. at the transition from zoom 0 to zoom 1; it is the
second entry, written while the loop variable `Z` (ghost field `atZoom`)
is 1 — has column and row equal to zoom 1's rectangle minima `(3, 4)` but
zoom field `0`, the pass's starting `min_z`, not the new zoom level `1`.
The claim that the saved checkpoint's zoom field is the new (next) zoom
level is therefore false: line 226 passes `min_z`, not `Z`, to
`WriteGlobalStatus`. -/
theorem C1_counterexample :
    (runPass cfgZoomPair 1 (fun _ => 404) 250 0 0 0 initState).checkpoints =
      [⟨0, 1, 2, 0, 0, Site.zoomStart, 0⟩, ⟨0, 3, 4, 0, 0, Site.zoomStart, 1⟩] := by
  decide

/-- C1 amended: at the start of every zoom level (hence at every transition
to a next zoom level) a global checkpoint is saved whose column and row are
the minimum column and row of that zoom's tile rectangle, but whose zoom
field is the pass's starting zoom `min_z` (the checkpointed zoom on a
resumed pass, the source's configured minimum otherwise) — not the new zoom
level.  Consequently a restart may re-download from the pass's starting
zoom onward, not at most one zoom level's worth of tiles. -/
theorem C1_amended (cfg : SourceCfg) (numSources : Nat) (oracle : Nat → Nat) (W : Nat)
    (pickupZ pickupX pickupY : Int) (s : CrawlState) (hck : s.checkpoints = [])
    (ck : Checkpoint)
    (hmem : ck ∈ (runPass cfg numSources oracle W pickupZ pickupX pickupY s).checkpoints)
    (hsite : ck.site = Site.zoomStart) :
    ck.z = (if s.pickupDone then cfg.minZ0 else pickupZ) ∧
    ck.x = (cfg.rectOf ck.atZoom).minX ∧ ck.y = (cfg.rectOf ck.atZoom).minY := by
  rcases runPass_ck_mem cfg numSources oracle W pickupZ pickupX pickupY s ck hmem with
    h | h | h | h
  · rw [hck] at h; cases h
  · rw [hsite] at h; cases h
  · rw [hsite] at h; cases h
  · exact h.2

/-- C1 amended, witness: the first checkpoint of the `cfgZoomPair` run is a
zoom-start save with zoom field `min_z = 0` and zoom 0's rectangle minima. -/
theorem C1_amended_witness :
    (⟨0, 1, 2, 0, 0, Site.zoomStart, 0⟩ : Checkpoint).z =
      (if initState.pickupDone then cfgZoomPair.minZ0 else 0) ∧
    (⟨0, 1, 2, 0, 0, Site.zoomStart, 0⟩ : Checkpoint).x =
      (cfgZoomPair.rectOf (⟨0, 1, 2, 0, 0, Site.zoomStart, 0⟩ : Checkpoint).atZoom).minX ∧
    (⟨0, 1, 2, 0, 0, Site.zoomStart, 0⟩ : Checkpoint).y =
      (cfgZoomPair.rectOf (⟨0, 1, 2, 0, 0, Site.zoomStart, 0⟩ : Checkpoint).atZoom).minY :=
  C1_amended cfgZoomPair 1 (fun _ => 404) 250 0 0 0 initState rfl
    ⟨0, 1, 2, 0, 0, Site.zoomStart, 0⟩ (by decide) rfl

/-! ### C2 -/

/-- C2 counterexample: with flush threshold 1, after the first tile
`(column 5, row 3)` of `cfgRowPair` succeeds, the batch-flush checkpoint
(the second `WriteGlobalStatus` of the run) records exactly `(5, 3)` — the
tile that was just completed — while the next tile to attempt in
source→zoom→row→column order, and indeed the very next tile the loop
visits, is `(column 6, row 3)`.  The flush save therefore records the last
completed tile, not the next tile to attempt, refuting the claim. -/
theorem C2_counterexample :
    (runPass cfgRowPair 1 (fun _ => 200) 1 0 0 0 initState).checkpoints[1]? =
      some ⟨0, 5, 3, 0, 1, Site.flush, 0⟩ ∧
    (runPass cfgRowPair 1 (fun _ => 200) 1 0 0 0 initState).visited =
      [(0, 3, 5), (0, 3, 6)] := by
  decide

/-- C2 amended: every global checkpoint written while fetching one tile
`(Z, X, Y)` is a batch-flush save that records exactly that just-completed
tile's position — the same convention as the end-of-pass/shutdown save at
line 299 — not the position of the next tile to attempt.  (The only saves
recording a position still to be attempted are the per-zoom-start saves of
line 226, and those carry `min_z` in the zoom field; see C1.) -/
theorem C2_amended (cfg : SourceCfg) (oracle : Nat → Nat) (W : Nat) (Z X Y : Int)
    (s : CrawlState) (ck : Checkpoint)
    (hmem : ck ∈ (retryLoop cfg oracle W Z X Y s).checkpoints) :
    ck ∈ s.checkpoints ∨
      (ck.site = Site.flush ∧ ck.x = X ∧ ck.y = Y ∧ ck.z = Z) := by
  rcases retryAux_ck_mem cfg oracle W Z X Y _ s ck hmem with h | h
  · exact Or.inl h
  · exact Or.inr ⟨h.1, h.2.1, h.2.2.1, h.2.2.2.1⟩

/-- C2 amended, witness: the checkpoint flushed while fetching tile
`(Z, X, Y) = (0, 5, 3)` of `cfgRowPair` records exactly that tile. -/
theorem C2_amended_witness :
    (⟨0, 5, 3, 0, 1, Site.flush, 0⟩ : Checkpoint) ∈ initState.checkpoints ∨
      ((⟨0, 5, 3, 0, 1, Site.flush, 0⟩ : Checkpoint).site = Site.flush ∧
        (⟨0, 5, 3, 0, 1, Site.flush, 0⟩ : Checkpoint).x = 5 ∧
        (⟨0, 5, 3, 0, 1, Site.flush, 0⟩ : Checkpoint).y = 3 ∧
        (⟨0, 5, 3, 0, 1, Site.flush, 0⟩ : Checkpoint).z = 0) :=
  C2_amended cfgRowPair (fun _ => 200) 1 0 5 3 initState
    ⟨0, 5, 3, 0, 1, Site.flush, 0⟩ (by decide)

/-! ### C3 -/

/-- C3 counterexample: in `cfgFatal`, tile `(x, y) = (0, 0)` succeeds and
tile `(1, 0)` returns HTTP 500 on its single (all-mirrors) attempt.  The
process does stop after logging the failure, but the last checkpoint on
disk at exit records `x = 1` — the tile whose fetch failed — and not the
last successfully completed tile `x = 0` (the only tile flushed to the
store).  Lines 298-299 write the surviving loop variables `X, Y, Z`, which
at that point name the failed tile. -/
theorem C3_counterexample :
    (runPass cfgFatal 1 (fun n => if n = 0 then 200 else 500) 250 0 0 0 initState).run
        = false ∧
    (runPass cfgFatal 1 (fun n => if n = 0 then 200 else 500) 250 0 0 0
        initState).tileLogs = [LogEvent.errorFail 0 1 0 500] ∧
    (runPass cfgFatal 1 (fun n => if n = 0 then 200 else 500) 250 0 0 0
        initState).dbWrites = [[⟨0, 0, 0⟩]] ∧
    (runPass cfgFatal 1 (fun n => if n = 0 then 200 else 500) 250 0 0 0
        initState).checkpoints.getLast? = some ⟨0, 1, 0, 0, 1, Site.passEnd, 0⟩ := by
  decide

/-- C3 amended: when a pass halts with `Run = False` (the fatal non-404
path) and at least one tile succeeded during the session, the last
checkpoint on disk at exit is the end-of-pass save built from the surviving
loop variables `X, Y, Z` — i.e. it records the position of the tile that
was in flight when the failure occurred, not the last successfully
completed tile.  (The failed tile is therefore retried on the next run,
matching the code comment at line 279.) -/
theorem C3_amended (cfg : SourceCfg) (numSources : Nat) (oracle : Nat → Nat) (W : Nat)
    (pickupZ pickupX pickupY : Int) (s : CrawlState)
    (hrun : (runPass cfg numSources oracle W pickupZ pickupX pickupY s).run = false)
    (hsess : 0 < (runPass cfg numSources oracle W pickupZ pickupX pickupY
      s).sessionTileCount) :
    (runPass cfg numSources oracle W pickupZ pickupX pickupY s).checkpoints.getLast? =
      some ⟨(runPass cfg numSources oracle W pickupZ pickupX pickupY s).sourceCounter,
        (runPass cfg numSources oracle W pickupZ pickupX pickupY s).lastX,
        (runPass cfg numSources oracle W pickupZ pickupX pickupY s).lastY,
        (runPass cfg numSources oracle W pickupZ pickupX pickupY s).lastZ,
        (runPass cfg numSources oracle W pickupZ pickupX pickupY s).totalTileCount,
        Site.passEnd,
        (runPass cfg numSources oracle W pickupZ pickupX pickupY s).lastZ⟩ :=
  save_complete_ck numSources _ hrun hsess

/-- C3 amended, witness: the `cfgFatal` scenario instantiates the amended
statement (and by `C3_counterexample` the recorded position `x = 1` is the
failed tile). -/
theorem C3_amended_witness :
    (runPass cfgFatal 1 (fun n => if n = 0 then 200 else 500) 250 0 0 0
        initState).checkpoints.getLast? =
      some ⟨(runPass cfgFatal 1 (fun n => if n = 0 then 200 else 500) 250 0 0 0
          initState).sourceCounter,
        (runPass cfgFatal 1 (fun n => if n = 0 then 200 else 500) 250 0 0 0
          initState).lastX,
        (runPass cfgFatal 1 (fun n => if n = 0 then 200 else 500) 250 0 0 0
          initState).lastY,
        (runPass cfgFatal 1 (fun n => if n = 0 then 200 else 500) 250 0 0 0
          initState).lastZ,
        (runPass cfgFatal 1 (fun n => if n = 0 then 200 else 500) 250 0 0 0
          initState).totalTileCount,
        Site.passEnd,
        (runPass cfgFatal 1 (fun n => if n = 0 then 200 else 500) 250 0 0 0
          initState).lastZ⟩ :=
  C3_amended cfgFatal 1 (fun n => if n = 0 then 200 else 500) 250 0 0 0 initState
    (by decide) (by decide)

/-! ### C7 -/

/-- C7: with flush threshold 3 and seven consecutive successful fetches
(`cfgSeven`: one row of seven tiles, every request HTTP 200) followed by
the end of the pass, exactly three `WriteToDB` flushes occur, with batch
sizes 3, 3 and 1 in that order, and the cumulative tile count carried by
the successive checkpoints rises by exactly each batch's size: 0 at the
zoom start, 3 and 6 at the two threshold flushes, and 7 after the final
partial flush.  Seven HTTP requests are made in total. -/
theorem C7_batch_flush :
    (runPass cfgSeven 1 (fun _ => 200) 3 0 0 0 initState).dbWrites.map List.length
        = [3, 3, 1] ∧
    (runPass cfgSeven 1 (fun _ => 200) 3 0 0 0 initState).checkpoints.map
        (fun ck => (ck.site, ck.total)) =
      [(Site.zoomStart, 0), (Site.flush, 3), (Site.flush, 6), (Site.passEnd, 7)] ∧
    (runPass cfgSeven 1 (fun _ => 200) 3 0 0 0 initState).httpCount = 7 := by
  decide

/-! ### C5: the retry loop under all-failing fetches -/

theorem retryAux_non200 (cfg : SourceCfg) (oracle : Nat → Nat) (W : Nat) (Z X Y : Int) :
    ∀ (fuel : Nat) (s : CrawlState), 0 < fuel →
    (∀ i, i < fuel → oracle (s.httpCount + i) ≠ 200) →
    ((retryLoopAux cfg oracle W Z X Y fuel s).httpCount = s.httpCount + fuel ∧
     (retryLoopAux cfg oracle W Z X Y fuel s).sessionTileCount = s.sessionTileCount ∧
     (retryLoopAux cfg oracle W Z X Y fuel s).dbWrites = s.dbWrites ∧
     (retryLoopAux cfg oracle W Z X Y fuel s).vectorTiles = s.vectorTiles ∧
     (retryLoopAux cfg oracle W Z X Y fuel s).checkpoints = s.checkpoints) ∧
    (if oracle (s.httpCount + (fuel - 1)) = 404 then
      (retryLoopAux cfg oracle W Z X Y fuel s).run = s.run ∧
      (retryLoopAux cfg oracle W Z X Y fuel s).tileLogs =
        s.tileLogs ++ [LogEvent.warn404 Z X Y]
     else
      (retryLoopAux cfg oracle W Z X Y fuel s).run = false ∧
      (retryLoopAux cfg oracle W Z X Y fuel s).tileLogs =
        s.tileLogs ++ [LogEvent.errorFail Z X Y (oracle (s.httpCount + (fuel - 1)))]) := by
  intro fuel
  induction fuel with
  | zero => intro s h0; exact absurd h0 (lt_irrefl 0)
  | succ f ih =>
    intro s _ hor
    have h200 : oracle s.httpCount ≠ 200 := by simpa using hor 0 (Nat.succ_pos f)
    rcases Nat.eq_zero_or_pos f with rfl | hf
    · by_cases h404 : oracle s.httpCount = 404
      · simp [retryLoopAux, h200, h404]
      · simp [retryLoopAux, h200, h404]
    · have hne : f ≠ 0 := Nat.pos_iff_ne_zero.mp hf
      have step : retryLoopAux cfg oracle W Z X Y (f + 1) s =
          retryLoopAux cfg oracle W Z X Y f
            { s with
              idxOOB := s.idxOOB ||
                decide (cfg.serverParts.length ≤ s.serverPartNumber),
              serverPartNumber := rotStep cfg.serverParts.length s.serverPartNumber,
              httpCount := s.httpCount + 1 } := by
        by_cases h404 : oracle s.httpCount = 404 <;>
          simp [retryLoopAux, h200, h404, hne]
      rw [step]
      have ih' := ih
        { s with
          idxOOB := s.idxOOB || decide (cfg.serverParts.length ≤ s.serverPartNumber),
          serverPartNumber := rotStep cfg.serverParts.length s.serverPartNumber,
          httpCount := s.httpCount + 1 } hf
        (fun i hi => by
          have h := hor (i + 1) (by omega)
          show oracle (s.httpCount + 1 + i) ≠ 200
          rwa [show s.httpCount + 1 + i = s.httpCount + (i + 1) by omega])
      have e1 : s.httpCount + 1 + f = s.httpCount + (f + 1) := by omega
      have e2 : s.httpCount + 1 + (f - 1) = s.httpCount + (f + 1 - 1) := by omega
      dsimp only at ih'
      rw [e1, e2] at ih'
      exact ih'

/-- Two mirrors, one single-tile zoom; for C5. -/
def cfgTwoMirrors : SourceCfg := ⟨List.replicate 2 "", 0, 0, fun _ => ⟨0, 0, 0, 0⟩⟩

/-- C5 counterexample: with a mirror list of length 2, a tile whose two
attempts return 500 and then 404 triggers exactly 2 attempts — but it
resolves as NotFound (the 404 warning is logged, `Run` stays true and the
enumeration continues), even though an attempt returned a non-404, non-200
status.  The code classifies by the status of the *final* attempt only
(lines 267-279), so the claim's "Failed ... if any attempt returned a
non-404, non-200 status" is false. -/
theorem C5_counterexample :
    (retryLoop cfgTwoMirrors (fun n => if n = 0 then 500 else 404) 250 7 3 4
        initState).httpCount = 2 ∧
    (retryLoop cfgTwoMirrors (fun n => if n = 0 then 500 else 404) 250 7 3 4
        initState).run = true ∧
    (retryLoop cfgTwoMirrors (fun n => if n = 0 then 500 else 404) 250 7 3 4
        initState).tileLogs = [LogEvent.warn404 7 3 4] ∧
    (retryLoop cfgTwoMirrors (fun n => if n = 0 then 500 else 404) 250 7 3 4
        initState).sessionTileCount = 0 := by
  decide

/-- C5 amended: for a mirror list of length M > 0 and a tile all of whose
fetch attempts return a non-200 status, exactly M attempts are made (the
request counter advances by exactly M; no tile is stored, buffered, flushed
or checkpointed), and the tile then resolves by the status of the *final*
attempt: NotFound (404 warning logged, `Run` unchanged, enumeration
continues) if the last attempt returned 404, and Failed (error logged,
`Run := False`, the process halts) if the last attempt returned a non-404,
non-200 status — regardless of the statuses of the earlier attempts. -/
theorem C5_amended (cfg : SourceCfg) (oracle : Nat → Nat) (W : Nat) (Z X Y : Int)
    (s : CrawlState) (hM : 0 < cfg.serverParts.length)
    (hor : ∀ i, i < cfg.serverParts.length → oracle (s.httpCount + i) ≠ 200) :
    ((retryLoop cfg oracle W Z X Y s).httpCount =
        s.httpCount + cfg.serverParts.length ∧
     (retryLoop cfg oracle W Z X Y s).sessionTileCount = s.sessionTileCount ∧
     (retryLoop cfg oracle W Z X Y s).dbWrites = s.dbWrites ∧
     (retryLoop cfg oracle W Z X Y s).vectorTiles = s.vectorTiles ∧
     (retryLoop cfg oracle W Z X Y s).checkpoints = s.checkpoints) ∧
    (if oracle (s.httpCount + (cfg.serverParts.length - 1)) = 404 then
      (retryLoop cfg oracle W Z X Y s).run = s.run ∧
      (retryLoop cfg oracle W Z X Y s).tileLogs =
        s.tileLogs ++ [LogEvent.warn404 Z X Y]
     else
      (retryLoop cfg oracle W Z X Y s).run = false ∧
      (retryLoop cfg oracle W Z X Y s).tileLogs =
        s.tileLogs ++ [LogEvent.errorFail Z X Y
          (oracle (s.httpCount + (cfg.serverParts.length - 1)))]) :=
  retryAux_non200 cfg oracle W Z X Y cfg.serverParts.length s hM hor

/-- C5 amended, witness: two mirrors, both attempts 404 — exactly two
attempts, warning logged, run continues. -/
theorem C5_amended_witness :
    (retryLoop cfgTwoMirrors (fun _ => 404) 250 7 3 4 initState).httpCount = 2 ∧
    (retryLoop cfgTwoMirrors (fun _ => 404) 250 7 3 4 initState).run = true ∧
    (retryLoop cfgTwoMirrors (fun _ => 404) 250 7 3 4 initState).tileLogs =
      [LogEvent.warn404 7 3 4] := by
  have h := C5_amended cfgTwoMirrors (fun _ => 404) 250 7 3 4 initState
    (by decide) (fun i _ => by simp)
  rw [if_pos (by decide)] at h
  exact ⟨h.1.1, h.2.1, by simpa using h.2.2⟩

/-! ### C6: mirror rotation fairness -/

theorem rotSeq_eq_mod (N s0 : Nat) (hs : s0 < N) : ∀ n, rotSeq N s0 n = (s0 + n) % N := by
  have hN : 0 < N := lt_of_le_of_lt (Nat.zero_le s0) hs
  intro n
  induction n with
  | zero => simp [rotSeq, Nat.mod_eq_of_lt hs]
  | succ n ih =>
    rw [rotSeq, ih, rotStep]
    have key : (s0 + (n + 1)) % N = ((s0 + n) % N + 1) % N :=
      (Nat.mod_add_mod (s0 + n) N 1).symm
    rw [key]
    by_cases h : (s0 + n) % N + 1 = N
    · rw [if_pos h, h, Nat.mod_self]
    · have hm : (s0 + n) % N < N := Nat.mod_lt _ hN
      rw [if_neg h]
      exact (Nat.mod_eq_of_lt (by omega)).symm

theorem addShift_mod_inj (N b : Nat) :
    ∀ r1 ∈ List.range N, ∀ r2 ∈ List.range N, (b + r1) % N = (b + r2) % N → r1 = r2 := by
  intro r1 h1 r2 h2 h
  rw [List.mem_range] at h1 h2
  have h' : r1 % N = r2 % N := Nat.ModEq.add_left_cancel' b h
  rwa [Nat.mod_eq_of_lt h1, Nat.mod_eq_of_lt h2] at h'

theorem addShift_mod_perm (N b : Nat) (hN : 0 < N) :
    ((List.range N).map (fun r => (b + r) % N)).Perm (List.range N) := by
  have hnd : ((List.range N).map (fun r => (b + r) % N)).Nodup :=
    (List.nodup_range N).map_on (addShift_mod_inj N b)
  have hsub : ((List.range N).map (fun r => (b + r) % N)) ⊆ List.range N := by
    intro x hx
    rcases List.mem_map.1 hx with ⟨r, _, rfl⟩
    exact List.mem_range.2 (Nat.mod_lt _ hN)
  exact (List.subperm_of_subset hnd hsub).perm_of_length_le (by simp)

theorem addShift_mod_count (N b j : Nat) (hN : 0 < N) (hj : j < N) :
    ((List.range N).map (fun r => (b + r) % N)).count j = 1 := by
  rw [(addShift_mod_perm N b hN).count_eq]
  exact List.count_eq_one_of_mem (List.nodup_range N) (List.mem_range.2 hj)

theorem count_mod_window (N s0 j : Nat) (hN : 0 < N) (hj : j < N) :
    ∀ k, ((List.range (N * k)).map (fun n => (s0 + n) % N)).count j = k := by
  intro k
  induction k with
  | zero => simp
  | succ k ih =>
    rw [show N * (k + 1) = N * k + N by ring, List.range_add, List.map_append,
      List.count_append, ih, List.map_map]
    have hco : ((fun n => (s0 + n) % N) ∘ (fun r => N * k + r)) =
        fun r => ((s0 + N * k) + r) % N := by
      funext r
      simp only [Function.comp_apply]
      rw [← Nat.add_assoc]
    rw [hco, addShift_mod_count N (s0 + N * k) j hN hj]

/-- C6: the mirror rotation of lines 249-251 (`rotStep`, iterated as
`rotSeq`) is round-robin fair: starting from any index `s0 < N` of a mirror
list of length N, over `N * k` successive attempts every mirror index
`j < N` is used exactly `k` times; within one tile's retry cycle of `N`
attempts the indices used are pairwise distinct (so each attempt uses a
different mirror than the previous one and each mirror gets exactly one
attempt per cycle); and the rotation returns to the starting mirror exactly
after all `N` mirrors have been used once. -/
theorem C6_rotation (N s0 k j : Nat) (hs : s0 < N) (hj : j < N) :
    ((List.range (N * k)).map (rotSeq N s0)).count j = k ∧
    ((List.range N).map (rotSeq N s0)).Nodup ∧
    rotSeq N s0 N = s0 := by
  have hN : 0 < N := lt_of_le_of_lt (Nat.zero_le s0) hs
  have hmap : ∀ (m : Nat),
      (List.range m).map (rotSeq N s0) = (List.range m).map (fun n => (s0 + n) % N) :=
    fun m => List.map_congr_left (fun n _ => rotSeq_eq_mod N s0 hs n)
  refine ⟨?_, ?_, ?_⟩
  · rw [hmap]; exact count_mod_window N s0 j hN hj k
  · rw [hmap]
    exact (List.nodup_range N).map_on (addShift_mod_inj N s0)
  · rw [rotSeq_eq_mod N s0 hs N, Nat.add_mod_right, Nat.mod_eq_of_lt hs]

/-- C6, witness: three mirrors, starting index 1, six calls — each index
occurs exactly twice, one cycle is duplicate-free, and the rotation returns
to index 1 after three calls. -/
theorem C6_rotation_witness :
    ((List.range (3 * 2)).map (rotSeq 3 1)).count 0 = 2 ∧
    ((List.range 3).map (rotSeq 3 1)).Nodup ∧
    rotSeq 3 1 3 = 1 :=
  C6_rotation 3 1 2 0 (by decide) (by decide)

/-! ### C8: the pending batch never exceeds the flush threshold -/

/-- The pending-batch invariant for flush threshold `W`: strictly fewer
than `W` tiles are buffered between tiles (the buffer reaches `W` only
momentarily inside the success branch, which immediately flushes and
empties it), and no batch ever handed to `WriteToDB` exceeded `W` tiles. -/
def BufInv (W : Nat) (s : CrawlState) : Prop :=
  s.vectorTiles.length < W ∧ ∀ b ∈ s.dbWrites, b.length ≤ W

instance (W : Nat) (s : CrawlState) : Decidable (BufInv W s) := by
  unfold BufInv; infer_instance

theorem retryAux_bufInv (cfg : SourceCfg) (oracle : Nat → Nat) (W : Nat) (Z X Y : Int) :
    ∀ (fuel : Nat) (s : CrawlState), BufInv W s →
    BufInv W (retryLoopAux cfg oracle W Z X Y fuel s) := by
  intro fuel
  induction fuel with
  | zero => intro s h; exact h
  | succ fuel ih =>
    intro s h
    simp only [retryLoopAux]
    split_ifs with h200 hW
    · refine ⟨by simpa using lt_of_le_of_lt (Nat.zero_le _) h.1, ?_⟩
      intro b hb
      simp only [List.mem_append, List.mem_singleton] at hb
      rcases hb with hb | rfl
      · exact h.2 b hb
      · exact le_of_eq hW
    · refine ⟨?_, h.2⟩
      have h1 := h.1
      simp only [List.length_append, List.length_singleton] at hW ⊢
      omega
    · exact ih _ h
    · exact ih _ h
    · exact h
    · exact ih _ h

theorem colLoop_bufInv (cfg : SourceCfg) (oracle : Nat → Nat) (W : Nat) (Z Y : Int) :
    ∀ (xs : List Int) (s : CrawlState), BufInv W s →
    BufInv W (colLoop cfg oracle W Z Y xs s) := by
  intro xs
  induction xs with
  | nil => intro s h; exact h
  | cons X xs ih =>
    intro s h
    simp only [colLoop]
    split_ifs
    · exact ih _ (retryAux_bufInv cfg oracle W Z X Y _ _ h)
    · exact retryAux_bufInv cfg oracle W Z X Y _ _ h

theorem rowLoop_bufInv (cfg : SourceCfg) (oracle : Nat → Nat) (W : Nat)
    (Z minX maxX pickupX : Int) :
    ∀ (ys : List Int) (s : CrawlState), BufInv W s →
    BufInv W (rowLoop cfg oracle W Z minX maxX pickupX ys s) := by
  intro ys
  induction ys with
  | nil => intro s h; exact h
  | cons Y ys ih =>
    intro s h
    simp only [rowLoop]
    split_ifs <;>
      first
        | exact ih _ (colLoop_bufInv cfg oracle W Z Y _ _ h)
        | exact colLoop_bufInv cfg oracle W Z Y _ _ h

theorem zoomLoop_bufInv (cfg : SourceCfg) (oracle : Nat → Nat) (W : Nat)
    (minz pickupX pickupY : Int) :
    ∀ (zs : List Int) (s : CrawlState), BufInv W s →
    BufInv W (zoomLoop cfg oracle W minz pickupX pickupY zs s) := by
  intro zs
  induction zs with
  | nil => intro s h; exact h
  | cons Z zs ih =>
    intro s h
    simp only [zoomLoop]
    split_ifs <;>
      first
        | exact ih _ (rowLoop_bufInv cfg oracle W Z _ _ pickupX _ _ h)
        | exact rowLoop_bufInv cfg oracle W Z _ _ pickupX _ _ h

theorem passFlush_bufInv (W : Nat) (s : CrawlState) (h : BufInv W s) :
    BufInv W (passFlush s) := by
  rw [passFlush]
  split_ifs
  · refine ⟨by simpa using lt_of_le_of_lt (Nat.zero_le _) h.1, ?_⟩
    intro b hb
    simp only [List.mem_append, List.mem_singleton] at hb
    rcases hb with hb | rfl
    · exact h.2 b hb
    · exact le_of_lt h.1
  · exact h

theorem passSave_bufInv (W : Nat) (s : CrawlState) (h : BufInv W s) :
    BufInv W (passSave s) := by
  rw [passSave]; split_ifs
  · exact h
  · exact h

theorem passComplete_bufInv (W n : Nat) (s : CrawlState) (h : BufInv W s) :
    BufInv W (passComplete n s) := by
  rw [passComplete]; split_ifs <;> exact h

/-- C8: starting from any state satisfying the pending-batch invariant for
the configured flush threshold `W` (in particular from the initial state
with an empty buffer), a whole pass preserves it: the buffer holds fewer
than `W` fetched-but-unpersisted tiles at every between-tiles point — every
append either leaves it below the threshold or hits exactly `W` and is
immediately flushed and emptied — and every batch written to the store
(where the buffer momentarily peaks) has at most `W` tiles. -/
theorem C8_buffer_bound (cfg : SourceCfg) (numSources : Nat) (oracle : Nat → Nat)
    (W : Nat) (pickupZ pickupX pickupY : Int) (s : CrawlState) (h : BufInv W s) :
    BufInv W (runPass cfg numSources oracle W pickupZ pickupX pickupY s) := by
  rw [runPass]
  exact passComplete_bufInv _ _ _ (passSave_bufInv _ _ (passFlush_bufInv _ _
    (zoomLoop_bufInv cfg oracle W _ pickupX pickupY _ s h)))

/-- C8, witness: the seven-tile run with threshold 3 satisfies the
invariant at exit. -/
theorem C8_buffer_bound_witness :
    BufInv 3 (runPass cfgSeven 1 (fun _ => 200) 3 0 0 0 initState) :=
  C8_buffer_bound cfgSeven 1 (fun _ => 200) 3 0 0 0 initState (by decide)

/-! ### C10: a source with an empty mirror list -/

theorem retryLoop_empty (cfg : SourceCfg) (oracle : Nat → Nat) (W : Nat) (Z X Y : Int)
    (hM : cfg.serverParts = []) (t : CrawlState) :
    retryLoop cfg oracle W Z X Y t = t := by
  rw [retryLoop, hM]
  rfl

theorem colLoop_empty (cfg : SourceCfg) (oracle : Nat → Nat) (W : Nat) (Z Y : Int)
    (hM : cfg.serverParts = []) :
    ∀ (xs : List Int) (s : CrawlState), s.run = true →
    ∃ lx, colLoop cfg oracle W Z Y xs s =
      { s with visited := s.visited ++ xs.map (fun X => (Z, Y, X)), lastX := lx } := by
  intro xs
  induction xs with
  | nil =>
    intro s _
    exact ⟨s.lastX, by simp [colLoop]⟩
  | cons X xs ih =>
    intro s hrun
    obtain ⟨lx, hlx⟩ := ih { s with lastX := X, visited := s.visited ++ [(Z, Y, X)] } hrun
    refine ⟨lx, ?_⟩
    have hrun1 : ({ s with
        lastX := X,
        visited := s.visited ++ [(Z, Y, X)] } : CrawlState).run = true := hrun
    simp only [colLoop, retryLoop_empty cfg oracle W Z X Y hM]
    rw [if_pos hrun1, hlx]
    simp [List.append_assoc]

theorem rowLoop_empty (cfg : SourceCfg) (oracle : Nat → Nat) (W : Nat)
    (Z minX maxX pickupX : Int) (hM : cfg.serverParts = []) :
    ∀ (ys : List Int) (s : CrawlState), s.run = true → s.pickupDone = true →
    ∃ ly lx, rowLoop cfg oracle W Z minX maxX pickupX ys s =
      { s with
        visited := s.visited ++
          ys.flatMap (fun Y => (intRange minX maxX).map (fun X => (Z, Y, X))),
        lastY := ly, lastX := lx } := by
  intro ys
  induction ys with
  | nil =>
    intro s _ _
    exact ⟨s.lastY, s.lastX, by simp [rowLoop]⟩
  | cons Y ys ih =>
    intro s hrun hpd
    obtain ⟨lx, hlx⟩ :=
      colLoop_empty cfg oracle W Z Y hM (intRange minX maxX)
        { s with lastY := Y, pickupDone := true } hrun
    obtain ⟨ly', lx', hrest⟩ := ih
      { s with
        lastY := Y,
        pickupDone := true,
        visited := s.visited ++ (intRange minX maxX).map (fun X => (Z, Y, X)),
        lastX := lx } hrun rfl
    refine ⟨ly', lx', ?_⟩
    have hrun1 : ({ s with
        lastY := Y,
        pickupDone := true,
        visited := s.visited ++ (intRange minX maxX).map (fun X => (Z, Y, X)),
        lastX := lx } : CrawlState).run = true := hrun
    simp only [rowLoop, hpd, if_true]
    rw [hlx, if_pos hrun1, hrest]
    simp [List.append_assoc]

theorem zoomLoop_empty (cfg : SourceCfg) (oracle : Nat → Nat) (W : Nat)
    (minz pickupX pickupY : Int) (hM : cfg.serverParts = []) :
    ∀ (zs : List Int) (s : CrawlState), s.run = true → s.pickupDone = true →
    ∃ cks lz ly lx, zoomLoop cfg oracle W minz pickupX pickupY zs s =
      { s with
        visited := s.visited ++
          zs.flatMap (fun Z =>
            (intRange (cfg.rectOf Z).minY (cfg.rectOf Z).maxY).flatMap (fun Y =>
              (intRange (cfg.rectOf Z).minX (cfg.rectOf Z).maxX).map
                (fun X => (Z, Y, X)))),
        checkpoints := s.checkpoints ++ cks,
        lastZ := lz, lastY := ly, lastX := lx } := by
  intro zs
  induction zs with
  | nil =>
    intro s _ _
    exact ⟨[], s.lastZ, s.lastY, s.lastX, by simp [zoomLoop]⟩
  | cons Z zs ih =>
    intro s hrun hpd
    obtain ⟨ly, lx, hrow⟩ :=
      rowLoop_empty cfg oracle W Z (cfg.rectOf Z).minX (cfg.rectOf Z).maxX pickupX hM
        (intRange (cfg.rectOf Z).minY (cfg.rectOf Z).maxY)
        { s with
          lastZ := Z,
          checkpoints := s.checkpoints ++
            [⟨s.sourceCounter, (cfg.rectOf Z).minX, (cfg.rectOf Z).minY, minz,
              s.totalTileCount, Site.zoomStart, Z⟩] }
        hrun hpd
    obtain ⟨cks, lz', ly', lx', hrest⟩ := ih
      { s with
        lastZ := Z,
        checkpoints := s.checkpoints ++
          [⟨s.sourceCounter, (cfg.rectOf Z).minX, (cfg.rectOf Z).minY, minz,
            s.totalTileCount, Site.zoomStart, Z⟩],
        visited := s.visited ++
          (intRange (cfg.rectOf Z).minY (cfg.rectOf Z).maxY).flatMap (fun Y =>
            (intRange (cfg.rectOf Z).minX (cfg.rectOf Z).maxX).map
              (fun X => (Z, Y, X))),
        lastY := ly, lastX := lx } hrun hpd
    refine ⟨⟨s.sourceCounter, (cfg.rectOf Z).minX, (cfg.rectOf Z).minY, minz,
      s.totalTileCount, Site.zoomStart, Z⟩ :: cks, lz', ly', lx', ?_⟩
    have hrun1 : ({ s with
        lastZ := Z,
        checkpoints := s.checkpoints ++
          [⟨s.sourceCounter, (cfg.rectOf Z).minX, (cfg.rectOf Z).minY, minz,
            s.totalTileCount, Site.zoomStart, Z⟩],
        visited := s.visited ++
          (intRange (cfg.rectOf Z).minY (cfg.rectOf Z).maxY).flatMap (fun Y =>
            (intRange (cfg.rectOf Z).minX (cfg.rectOf Z).maxX).map
              (fun X => (Z, Y, X))),
        lastY := ly, lastX := lx } : CrawlState).run = true := hrun
    simp only [zoomLoop]
    rw [if_pos hpd, hrow, if_pos hrun1, hrest]
    simp [List.append_assoc]

theorem passFlush_of_empty (t : CrawlState) (h : t.vectorTiles = []) :
    passFlush t = t := by
  rw [passFlush, h]
  simp

theorem passSave_same (t : CrawlState) :
    (passSave t).httpCount = t.httpCount ∧ (passSave t).dbWrites = t.dbWrites ∧
    (passSave t).tileLogs = t.tileLogs ∧
    (passSave t).sessionTileCount = t.sessionTileCount ∧
    (passSave t).serverPartNumber = t.serverPartNumber ∧
    (passSave t).idxOOB = t.idxOOB ∧ (passSave t).run = t.run ∧
    (passSave t).visited = t.visited := by
  rw [passSave]; split_ifs <;> simp

theorem passComplete_same (n : Nat) (t : CrawlState) :
    (passComplete n t).httpCount = t.httpCount ∧ (passComplete n t).dbWrites = t.dbWrites ∧
    (passComplete n t).tileLogs = t.tileLogs ∧
    (passComplete n t).sessionTileCount = t.sessionTileCount ∧
    (passComplete n t).serverPartNumber = t.serverPartNumber ∧
    (passComplete n t).idxOOB = t.idxOOB ∧ (passComplete n t).run = t.run ∧
    (passComplete n t).visited = t.visited := by
  rw [passComplete]; split_ifs <;> simp

/-- C10: for a source whose mirror list is the empty list `[]` (length 0,
unlike `[""]` of length 1), `MaxRetries = 0`, so the retry loop body never
runs for any tile: a whole pass started fresh (here from any state with
`Run` true, `PickupDone` true and an empty buffer) enumerates the entire
grid of the source — `visited` grows by exactly `gridTiles cfg` — while
performing no HTTP request (`httpCount` unchanged), no store write
(`dbWrites` unchanged), no per-tile log entry (`tileLogs` unchanged), no
mirror-list indexing at all (`serverPartNumber` and the out-of-bounds flag
`idxOOB` unchanged), storing and counting no tile (`sessionTileCount`
unchanged), and the pass completes normally (`Run` still true). -/
theorem C10_empty_mirror_list (cfg : SourceCfg) (numSources : Nat) (oracle : Nat → Nat)
    (W : Nat) (pickupZ pickupX pickupY : Int) (s : CrawlState)
    (hM : cfg.serverParts = []) (hrun : s.run = true) (hpd : s.pickupDone = true)
    (hvec : s.vectorTiles = []) :
    (runPass cfg numSources oracle W pickupZ pickupX pickupY s).httpCount = s.httpCount ∧
    (runPass cfg numSources oracle W pickupZ pickupX pickupY s).dbWrites = s.dbWrites ∧
    (runPass cfg numSources oracle W pickupZ pickupX pickupY s).tileLogs = s.tileLogs ∧
    (runPass cfg numSources oracle W pickupZ pickupX pickupY s).sessionTileCount =
      s.sessionTileCount ∧
    (runPass cfg numSources oracle W pickupZ pickupX pickupY s).serverPartNumber =
      s.serverPartNumber ∧
    (runPass cfg numSources oracle W pickupZ pickupX pickupY s).idxOOB = s.idxOOB ∧
    (runPass cfg numSources oracle W pickupZ pickupX pickupY s).run = true ∧
    (runPass cfg numSources oracle W pickupZ pickupX pickupY s).visited =
      s.visited ++ gridTiles cfg := by
  obtain ⟨cks, lz, ly, lx, hz⟩ :=
    zoomLoop_empty cfg oracle W cfg.minZ0 pickupX pickupY hM
      (intRange cfg.minZ0 cfg.maxZ) s hrun hpd
  rw [runPass]
  simp only [hpd, if_true]
  rw [hz, passFlush_of_empty _ (by exact hvec)]
  have hS := passSave_same
    { s with
      visited := s.visited ++
        (intRange cfg.minZ0 cfg.maxZ).flatMap (fun Z =>
          (intRange (cfg.rectOf Z).minY (cfg.rectOf Z).maxY).flatMap (fun Y =>
            (intRange (cfg.rectOf Z).minX (cfg.rectOf Z).maxX).map
              (fun X => (Z, Y, X)))),
      checkpoints := s.checkpoints ++ cks,
      lastZ := lz, lastY := ly, lastX := lx }
  have hC := passComplete_same numSources (passSave
    { s with
      visited := s.visited ++
        (intRange cfg.minZ0 cfg.maxZ).flatMap (fun Z =>
          (intRange (cfg.rectOf Z).minY (cfg.rectOf Z).maxY).flatMap (fun Y =>
            (intRange (cfg.rectOf Z).minX (cfg.rectOf Z).maxX).map
              (fun X => (Z, Y, X)))),
      checkpoints := s.checkpoints ++ cks,
      lastZ := lz, lastY := ly, lastX := lx })
  refine ⟨?_, ?_, ?_, ?_, ?_, ?_, ?_, ?_⟩
  · rw [hC.1, hS.1]
  · rw [hC.2.1, hS.2.1]
  · rw [hC.2.2.1, hS.2.2.1]
  · rw [hC.2.2.2.1, hS.2.2.2.1]
  · rw [hC.2.2.2.2.1, hS.2.2.2.2.1]
  · rw [hC.2.2.2.2.2.1, hS.2.2.2.2.2.1]
  · rw [hC.2.2.2.2.2.2.1, hS.2.2.2.2.2.2.1]; exact hrun
  · rw [hC.2.2.2.2.2.2.2, hS.2.2.2.2.2.2.2, gridTiles]

/-- A two-zoom source with a 2x1 rectangle per zoom and an empty mirror
list, for the C10 witness. -/
def cfgNoMirrors : SourceCfg := ⟨[], 0, 1, fun _ => ⟨0, 1, 0, 0⟩⟩

/-- C10, witness: the empty-mirror pass over `cfgNoMirrors` enumerates its
four tiles and performs no request, write or log. -/
theorem C10_empty_mirror_list_witness :
    (runPass cfgNoMirrors 1 (fun _ => 200) 250 0 0 0 initState).httpCount =
      initState.httpCount ∧
    (runPass cfgNoMirrors 1 (fun _ => 200) 250 0 0 0 initState).dbWrites =
      initState.dbWrites ∧
    (runPass cfgNoMirrors 1 (fun _ => 200) 250 0 0 0 initState).tileLogs =
      initState.tileLogs ∧
    (runPass cfgNoMirrors 1 (fun _ => 200) 250 0 0 0 initState).sessionTileCount =
      initState.sessionTileCount ∧
    (runPass cfgNoMirrors 1 (fun _ => 200) 250 0 0 0 initState).serverPartNumber =
      initState.serverPartNumber ∧
    (runPass cfgNoMirrors 1 (fun _ => 200) 250 0 0 0 initState).idxOOB =
      initState.idxOOB ∧
    (runPass cfgNoMirrors 1 (fun _ => 200) 250 0 0 0 initState).run = true ∧
    (runPass cfgNoMirrors 1 (fun _ => 200) 250 0 0 0 initState).visited =
      initState.visited ++ gridTiles cfgNoMirrors :=
  C10_empty_mirror_list cfgNoMirrors 1 (fun _ => 200) 250 0 0 0 initState rfl rfl rfl rfl

/-! ### C4: resuming from a checkpoint -/

theorem intRange_cons (a b : Int) (h : a ≤ b) :
    intRange a b = a :: intRange (a + 1) b := by
  have h1 : (b + 1 - a).toNat = (b + 1 - (a + 1)).toNat + 1 := by omega
  rw [intRange, h1, List.range_succ_eq_map]
  simp only [List.map_cons, List.map_map]
  refine congrArg₂ List.cons (by simp) ?_
  rw [intRange]
  refine List.map_congr_left ?_
  intro i _
  simp only [Function.comp_apply, Nat.succ_eq_add_one]
  push_cast
  ring

theorem retryLoop_visited (cfg : SourceCfg) (oracle : Nat → Nat) (W : Nat)
    (Z X Y : Int) (s : CrawlState) :
    (retryLoop cfg oracle W Z X Y s).visited = s.visited :=
  retryAux_visited cfg oracle W Z X Y _ s

theorem colLoop_visited_ext (cfg : SourceCfg) (oracle : Nat → Nat) (W : Nat) (Z Y : Int) :
    ∀ (xs : List Int) (s : CrawlState),
    ∃ t, (colLoop cfg oracle W Z Y xs s).visited = s.visited ++ t := by
  intro xs
  induction xs with
  | nil => intro s; exact ⟨[], by simp [colLoop]⟩
  | cons X xs ih =>
    intro s
    simp only [colLoop]
    split_ifs with h
    · obtain ⟨t, ht⟩ := ih (retryLoop cfg oracle W Z X Y
        { s with lastX := X, visited := s.visited ++ [(Z, Y, X)] })
      refine ⟨(Z, Y, X) :: t, ?_⟩
      rw [ht, retryLoop_visited]
      simp
    · refine ⟨[(Z, Y, X)], ?_⟩
      rw [retryLoop_visited]

theorem colLoop_visited_cons (cfg : SourceCfg) (oracle : Nat → Nat) (W : Nat)
    (Z Y X : Int) (xs : List Int) (s : CrawlState) :
    ∃ t, (colLoop cfg oracle W Z Y (X :: xs) s).visited =
      s.visited ++ (Z, Y, X) :: t := by
  simp only [colLoop]
  split_ifs with h
  · obtain ⟨t, ht⟩ := colLoop_visited_ext cfg oracle W Z Y xs (retryLoop cfg oracle W Z X Y
      { s with lastX := X, visited := s.visited ++ [(Z, Y, X)] })
    refine ⟨t, ?_⟩
    rw [ht, retryLoop_visited]
    simp
  · refine ⟨[], ?_⟩
    rw [retryLoop_visited]

theorem rowLoop_visited_ext (cfg : SourceCfg) (oracle : Nat → Nat) (W : Nat)
    (Z minX maxX pickupX : Int) :
    ∀ (ys : List Int) (s : CrawlState),
    ∃ t, (rowLoop cfg oracle W Z minX maxX pickupX ys s).visited = s.visited ++ t := by
  intro ys
  induction ys with
  | nil => intro s; exact ⟨[], by simp [rowLoop]⟩
  | cons Y ys ih =>
    intro s
    simp only [rowLoop]
    generalize (if s.pickupDone = true then minX else pickupX) = sx
    split_ifs with h
    · obtain ⟨t1, h1⟩ := colLoop_visited_ext cfg oracle W Z Y (intRange sx maxX)
        { s with lastY := Y, pickupDone := true }
      obtain ⟨t2, h2⟩ := ih (colLoop cfg oracle W Z Y (intRange sx maxX)
        { s with lastY := Y, pickupDone := true })
      refine ⟨t1 ++ t2, ?_⟩
      rw [h2, h1]
      simp
    · obtain ⟨t1, h1⟩ := colLoop_visited_ext cfg oracle W Z Y (intRange sx maxX)
        { s with lastY := Y, pickupDone := true }
      exact ⟨t1, h1⟩

theorem rowLoop_visited_cons (cfg : SourceCfg) (oracle : Nat → Nat) (W : Nat)
    (Z minX maxX pickupX Y : Int) (ys : List Int) (s : CrawlState) (sx : Int)
    (hsx : (if s.pickupDone then minX else pickupX) = sx) (hX : sx ≤ maxX) :
    ∃ t, (rowLoop cfg oracle W Z minX maxX pickupX (Y :: ys) s).visited =
      s.visited ++ (Z, Y, sx) :: t := by
  simp only [rowLoop]
  rw [hsx, intRange_cons _ _ hX]
  split_ifs with h
  · obtain ⟨t1, h1⟩ := colLoop_visited_cons cfg oracle W Z Y sx
      (intRange (sx + 1) maxX) { s with lastY := Y, pickupDone := true }
    obtain ⟨t2, h2⟩ := rowLoop_visited_ext cfg oracle W Z minX maxX pickupX ys
      (colLoop cfg oracle W Z Y (sx :: intRange (sx + 1) maxX)
        { s with lastY := Y, pickupDone := true })
    refine ⟨t1 ++ t2, ?_⟩
    rw [h2, h1]
    simp
  · obtain ⟨t1, h1⟩ := colLoop_visited_cons cfg oracle W Z Y sx
      (intRange (sx + 1) maxX) { s with lastY := Y, pickupDone := true }
    exact ⟨t1, h1⟩

theorem zoomLoop_visited_ext (cfg : SourceCfg) (oracle : Nat → Nat) (W : Nat)
    (minz pickupX pickupY : Int) :
    ∀ (zs : List Int) (s : CrawlState),
    ∃ t, (zoomLoop cfg oracle W minz pickupX pickupY zs s).visited = s.visited ++ t := by
  intro zs
  induction zs with
  | nil => intro s; exact ⟨[], by simp [zoomLoop]⟩
  | cons Z zs ih =>
    intro s
    simp only [zoomLoop]
    generalize (if s.pickupDone = true then (cfg.rectOf Z).minY else pickupY) = sy
    split_ifs with h
    · obtain ⟨t1, h1⟩ := rowLoop_visited_ext cfg oracle W Z
        (cfg.rectOf Z).minX (cfg.rectOf Z).maxX pickupX (intRange sy (cfg.rectOf Z).maxY) _
      obtain ⟨t2, h2⟩ := ih _
      refine ⟨t1 ++ t2, ?_⟩
      rw [h2, h1]
      simp
    · obtain ⟨t1, h1⟩ := rowLoop_visited_ext cfg oracle W Z
        (cfg.rectOf Z).minX (cfg.rectOf Z).maxX pickupX (intRange sy (cfg.rectOf Z).maxY) _
      exact ⟨t1, h1⟩

theorem zoomLoop_visited_cons (cfg : SourceCfg) (oracle : Nat → Nat) (W : Nat)
    (minz pickupX pickupY Z : Int) (zs : List Int) (s : CrawlState) (sy sx : Int)
    (hsy : (if s.pickupDone then (cfg.rectOf Z).minY else pickupY) = sy)
    (hsx : (if s.pickupDone then (cfg.rectOf Z).minX else pickupX) = sx)
    (hY : sy ≤ (cfg.rectOf Z).maxY) (hX : sx ≤ (cfg.rectOf Z).maxX) :
    ∃ t, (zoomLoop cfg oracle W minz pickupX pickupY (Z :: zs) s).visited =
      s.visited ++ (Z, sy, sx) :: t := by
  simp only [zoomLoop]
  rw [hsy, intRange_cons _ _ hY]
  split_ifs with h
  · obtain ⟨t1, h1⟩ := rowLoop_visited_cons cfg oracle W Z
      (cfg.rectOf Z).minX (cfg.rectOf Z).maxX pickupX sy
      (intRange (sy + 1) (cfg.rectOf Z).maxY)
      { s with
        lastZ := Z,
        checkpoints := s.checkpoints ++
          [⟨s.sourceCounter, (cfg.rectOf Z).minX, (cfg.rectOf Z).minY, minz,
            s.totalTileCount, Site.zoomStart, Z⟩] }
      sx hsx hX
    obtain ⟨t2, h2⟩ := zoomLoop_visited_ext cfg oracle W minz pickupX pickupY zs _
    refine ⟨t1 ++ t2, ?_⟩
    rw [h2, h1]
    simp
  · obtain ⟨t1, h1⟩ := rowLoop_visited_cons cfg oracle W Z
      (cfg.rectOf Z).minX (cfg.rectOf Z).maxX pickupX sy
      (intRange (sy + 1) (cfg.rectOf Z).maxY)
      { s with
        lastZ := Z,
        checkpoints := s.checkpoints ++
          [⟨s.sourceCounter, (cfg.rectOf Z).minX, (cfg.rectOf Z).minY, minz,
            s.totalTileCount, Site.zoomStart, Z⟩] }
      sx hsx hX
    exact ⟨t1, h1⟩

theorem passFlush_visited (t : CrawlState) : (passFlush t).visited = t.visited := by
  rw [passFlush]; split_ifs <;> rfl

theorem passTail_visited (n : Nat) (t : CrawlState) :
    (passComplete n (passSave (passFlush t))).visited = t.visited := by
  rw [(passComplete_same n _).2.2.2.2.2.2.2, (passSave_same _).2.2.2.2.2.2.2,
    passFlush_visited]

theorem runPass_first_visited_pickup (cfg : SourceCfg) (numSources : Nat)
    (oracle : Nat → Nat) (W : Nat) (Zp Xp Yp : Int) (s : CrawlState)
    (hpd : s.pickupDone = false) (hZ : Zp ≤ cfg.maxZ)
    (hY : Yp ≤ (cfg.rectOf Zp).maxY) (hX : Xp ≤ (cfg.rectOf Zp).maxX) :
    ∃ t, (runPass cfg numSources oracle W Zp Xp Yp s).visited =
      s.visited ++ (Zp, Yp, Xp) :: t := by
  rw [runPass, passTail_visited]
  simp only [hpd, Bool.false_eq_true, if_false]
  rw [intRange_cons _ _ hZ]
  exact zoomLoop_visited_cons cfg oracle W Zp Xp Yp Zp (intRange (Zp + 1) cfg.maxZ) s
    Yp Xp (by simp [hpd]) (by simp [hpd]) hY hX

theorem runPass_first_visited_fresh (cfg : SourceCfg) (numSources : Nat)
    (oracle : Nat → Nat) (W : Nat) (Zp Xp Yp : Int) (s : CrawlState)
    (hpd : s.pickupDone = true) (hZ : cfg.minZ0 ≤ cfg.maxZ)
    (hY : (cfg.rectOf cfg.minZ0).minY ≤ (cfg.rectOf cfg.minZ0).maxY)
    (hX : (cfg.rectOf cfg.minZ0).minX ≤ (cfg.rectOf cfg.minZ0).maxX) :
    ∃ t, (runPass cfg numSources oracle W Zp Xp Yp s).visited =
      s.visited ++ (cfg.minZ0, (cfg.rectOf cfg.minZ0).minY,
        (cfg.rectOf cfg.minZ0).minX) :: t := by
  rw [runPass, passTail_visited]
  simp only [hpd, if_true]
  rw [intRange_cons _ _ hZ]
  exact zoomLoop_visited_cons cfg oracle W cfg.minZ0 Xp Yp cfg.minZ0
    (intRange (cfg.minZ0 + 1) cfg.maxZ) s
    (cfg.rectOf cfg.minZ0).minY (cfg.rectOf cfg.minZ0).minX
    (by simp [hpd]) (by simp [hpd]) hY hX


theorem runPass_run_pickupDone (cfg : SourceCfg) (numSources : Nat) (oracle : Nat → Nat)
    (W : Nat) (pickupZ pickupX pickupY : Int) (s : CrawlState)
    (h : (runPass cfg numSources oracle W pickupZ pickupX pickupY s).run = true) :
    (runPass cfg numSources oracle W pickupZ pickupX pickupY s).pickupDone = true := by
  rw [runPass, passComplete] at h ⊢
  split_ifs at h ⊢
  all_goals first | rfl | exact absurd h (by assumption)

theorem runSources_one (cfgs : List SourceCfg) (oracle : Nat → Nat) (W : Nat)
    (pickupZ pickupX pickupY : Int) (t : CrawlState) (h : t.run = true) :
    runSources cfgs oracle W pickupZ pickupX pickupY 1 t =
      runPass (cfgs.getD t.sourceCounter default) cfgs.length oracle W
        pickupZ pickupX pickupY t := by
  rw [show runSources cfgs oracle W pickupZ pickupX pickupY 1 t =
    (if t.run = true then
      runPass (cfgs.getD t.sourceCounter default) cfgs.length oracle W
        pickupZ pickupX pickupY t
     else t) from rfl, if_pos h]

/-- C4: with a saved global checkpoint `(S, Zp, Xp, Yp, T)` whose column
`Xp` is nonzero (the `Resuming` case: `PickupDone = (X == 0)` is false),
and with the checkpointed position inside source `S`'s rectangle at zoom
`Zp`, the first source visit starts at zoom `Zp` (the checkpointed zoom
becomes the effective `min_z`) and the very first (row, column) enumerated
is exactly the checkpointed `(Yp, Xp)`; and whichever source the run
reaches next (after the resumed pass completes with `Run` still true)
starts fresh: its first enumerated tile is its own configured minimum zoom
and the minima of its rectangle at that zoom, because `PickupDone` is true
from then on. -/
theorem C4_resume (cfgs : List SourceCfg) (oracle : Nat → Nat) (W : Nat)
    (S : Nat) (Zp Xp Yp : Int) (T : Nat)
    (hX : Xp ≠ 0)
    (hZ : Zp ≤ (cfgs.getD S default).maxZ)
    (hY : Yp ≤ ((cfgs.getD S default).rectOf Zp).maxY)
    (hXr : Xp ≤ ((cfgs.getD S default).rectOf Zp).maxX) :
    (∃ t, (runSources cfgs oracle W Zp Xp Yp 1 (startupState S Xp T)).visited =
        (Zp, Yp, Xp) :: t) ∧
    (∀ cfg1, cfg1 = cfgs.getD (runSources cfgs oracle W Zp Xp Yp 1
        (startupState S Xp T)).sourceCounter default →
      (runSources cfgs oracle W Zp Xp Yp 1 (startupState S Xp T)).run = true →
      cfg1.minZ0 ≤ cfg1.maxZ →
      (cfg1.rectOf cfg1.minZ0).minY ≤ (cfg1.rectOf cfg1.minZ0).maxY →
      (cfg1.rectOf cfg1.minZ0).minX ≤ (cfg1.rectOf cfg1.minZ0).maxX →
      ∃ t, (runSources cfgs oracle W Zp Xp Yp 2 (startupState S Xp T)).visited =
        (runSources cfgs oracle W Zp Xp Yp 1 (startupState S Xp T)).visited ++
          (cfg1.minZ0, (cfg1.rectOf cfg1.minZ0).minY,
            (cfg1.rectOf cfg1.minZ0).minX) :: t) := by
  have hpd0 : (startupState S Xp T).pickupDone = false := by
    show decide (Xp = 0) = false
    exact decide_eq_false hX
  have h1 : runSources cfgs oracle W Zp Xp Yp 1 (startupState S Xp T) =
      runPass (cfgs.getD S default) cfgs.length oracle W Zp Xp Yp
        (startupState S Xp T) := rfl
  constructor
  · obtain ⟨t, ht⟩ := runPass_first_visited_pickup (cfgs.getD S default) cfgs.length
      oracle W Zp Xp Yp (startupState S Xp T) hpd0 hZ hY hXr
    refine ⟨t, ?_⟩
    rw [h1, ht]
    rfl
  · intro cfg1 hcfg1 hrun1 hz1 hy1 hx1
    have hrun1' : (runPass (cfgs.getD S default) cfgs.length oracle W Zp Xp Yp
        (startupState S Xp T)).run = true := by rw [← h1]; exact hrun1
    have hpd1 := runPass_run_pickupDone (cfgs.getD S default) cfgs.length oracle W
      Zp Xp Yp (startupState S Xp T) hrun1'
    obtain ⟨t, ht⟩ := runPass_first_visited_fresh cfg1 cfgs.length oracle W Zp Xp Yp
      (runPass (cfgs.getD S default) cfgs.length oracle W Zp Xp Yp
        (startupState S Xp T)) hpd1 hz1 hy1 hx1
    refine ⟨t, ?_⟩
    have h2 : runSources cfgs oracle W Zp Xp Yp 2 (startupState S Xp T) =
        runSources cfgs oracle W Zp Xp Yp 1
          (runSources cfgs oracle W Zp Xp Yp 1 (startupState S Xp T)) := rfl
    rw [h2, h1, runSources_one cfgs oracle W Zp Xp Yp _ hrun1']
    rw [h1] at hcfg1
    rw [← hcfg1]
    exact ht

/-- First source for the C4 witness: zooms 0-3, a 2x2 rectangle. -/
def cfgResumeA : SourceCfg := ⟨srvOne, 0, 3, fun _ => ⟨0, 1, 0, 1⟩⟩

/-- Second source for the C4 witness: its own minimum zoom 5, a single
tile at (10, 20). -/
def cfgResumeB : SourceCfg := ⟨srvOne, 5, 5, fun _ => ⟨10, 10, 20, 20⟩⟩

/-- C4, witness: resuming from checkpoint (source 0, zoom 2, column 1,
row 1) starts exactly there, and the next source starts fresh at its own
minimum zoom. -/
theorem C4_resume_witness :
    (∃ t, (runSources [cfgResumeA, cfgResumeB] (fun _ => 404) 250 2 1 1 1
        (startupState 0 1 9)).visited = (2, 1, 1) :: t) ∧
    (∀ cfg1, cfg1 = [cfgResumeA, cfgResumeB].getD
        (runSources [cfgResumeA, cfgResumeB] (fun _ => 404) 250 2 1 1 1
          (startupState 0 1 9)).sourceCounter default →
      (runSources [cfgResumeA, cfgResumeB] (fun _ => 404) 250 2 1 1 1
        (startupState 0 1 9)).run = true →
      cfg1.minZ0 ≤ cfg1.maxZ →
      (cfg1.rectOf cfg1.minZ0).minY ≤ (cfg1.rectOf cfg1.minZ0).maxY →
      (cfg1.rectOf cfg1.minZ0).minX ≤ (cfg1.rectOf cfg1.minZ0).maxX →
      ∃ t, (runSources [cfgResumeA, cfgResumeB] (fun _ => 404) 250 2 1 1 2
          (startupState 0 1 9)).visited =
        (runSources [cfgResumeA, cfgResumeB] (fun _ => 404) 250 2 1 1 1
          (startupState 0 1 9)).visited ++
          (cfg1.minZ0, (cfg1.rectOf cfg1.minZ0).minY,
            (cfg1.rectOf cfg1.minZ0).minX) :: t) :=
  C4_resume [cfgResumeA, cfgResumeB] (fun _ => 404) 250 0 2 1 1 9
    (by decide) (by decide) (by decide) (by decide)

/-! ### C9: the tile rectangle of the whole-world bounding box at zoom 0

The only floating-point computation of the script, `deg2num` and the
rectangle assembly of lines 213-219, is modelled over the exact reals; in
the instance proved below every intermediate value is far from the nearest
integer boundary, so rounding of IEEE doubles cannot change the truncated
results.  Note the code passes `BoundingBox[0], BoundingBox[1]` (documented
at line 16 as `min_lon, min_lat`) positionally into `deg2num(lat_deg,
lon_deg, zoom)`: the x-formula is evaluated on the latitude bound and the
y-formula on the longitude bound.  At zoom 0 with the whole-world box the
resulting rectangle is still exactly the single tile (0,0)-(0,0). -/

/-- Python `int()` applied to a float: truncation toward zero. -/
noncomputable def truncToZero (x : ℝ) : ℤ := if 0 ≤ x then ⌊x⌋ else ⌈x⌉

/-- Real-number model of `deg2num` (lines 82-87): `lat_rad = radians(lat_deg)`,
`n = 2.0 ** zoom`, `xtile = int((lon_deg + 180)/360 * n)`,
`ytile = int((1 - asinh(tan(lat_rad))/pi) * n / 2)`. -/
noncomputable def deg2num (lat_deg lon_deg : ℝ) (zoom : ℕ) : ℤ × ℤ :=
  (truncToZero ((lon_deg + 180) / 360 * (2 : ℝ) ^ zoom),
   truncToZero ((1 - Real.arsinh (Real.tan (lat_deg * Real.pi / 180)) / Real.pi) *
     (2 : ℝ) ^ zoom / 2))

/-- The crawl loop's tile-rectangle assembly (lines 213-219):
`LowerLeft = deg2num(BoundingBox[0], BoundingBox[1], Z)`,
`UpperRight = deg2num(BoundingBox[2], BoundingBox[3], Z)`,
`min_x = LowerLeft[0]`, `max_x = UpperRight[0]`, `min_y = UpperRight[1]`,
`max_y = LowerLeft[1]`; returned as `(min_x, max_x, min_y, max_y)`. -/
noncomputable def bboxTileRect (b0 b1 b2 b3 : ℝ) (Z : ℕ) : ℤ × ℤ × ℤ × ℤ :=
  ((deg2num b0 b1 Z).1, (deg2num b2 b3 Z).1, (deg2num b2 b3 Z).2, (deg2num b0 b1 Z).2)

theorem truncToZero_eq_zero (x : ℝ) (h0 : 0 ≤ x) (h1 : x < 1) : truncToZero x = 0 := by
  rw [truncToZero, if_pos h0]
  exact Int.floor_eq_zero_iff.mpr ⟨h0, h1⟩

/-- C9: for the bounding box exactly covering the whole world, written in
the configuration order documented at line 16 —
`[min_lon, min_lat, max_lon, max_lat] = [-180, -85.0511, 180, 85.0511]` —
the tile-rectangle computation at zoom 0 returns exactly the single tile
rectangle (0,0)-(0,0): `min_x = max_x = min_y = max_y = 0`. -/
theorem C9_whole_world :
    bboxTileRect (-180) (-85.0511) 180 85.0511 0 = (0, 0, 0, 0) := by
  have hpi : (0 : ℝ) < Real.pi := Real.pi_pos
  have htan1 : Real.tan ((-180 : ℝ) * Real.pi / 180) = 0 := by
    have h : ((-180 : ℝ) * Real.pi / 180) = -Real.pi := by ring
    rw [h, Real.tan_neg, Real.tan_pi, neg_zero]
  have htan2 : Real.tan ((180 : ℝ) * Real.pi / 180) = 0 := by
    have h : ((180 : ℝ) * Real.pi / 180) = Real.pi := by ring
    rw [h, Real.tan_pi]
  rw [bboxTileRect, deg2num, deg2num, htan1, htan2, Real.arsinh_zero, zero_div]
  have hy : truncToZero ((1 - 0) * (2 : ℝ) ^ (0 : ℕ) / 2) = 0 := by
    apply truncToZero_eq_zero <;> norm_num
  have hx1 : truncToZero (((-85.0511 : ℝ) + 180) / 360 * (2 : ℝ) ^ (0 : ℕ)) = 0 := by
    apply truncToZero_eq_zero <;> norm_num
  have hx2 : truncToZero (((85.0511 : ℝ) + 180) / 360 * (2 : ℝ) ^ (0 : ℕ)) = 0 := by
    apply truncToZero_eq_zero <;> norm_num
  rw [hy, hx1, hx2]

end PBF
